import Mathlib

/-!
# Verification of the dungeon-crawler scene

This development embeds the core of the repository dungeon scene
(dungeon-to-tilemap painter, room classification, prop placement,
collision configuration, room-visibility tracker, per-frame update and
the stairs goal callback) as Lean definitions and proves the testable properties the spec states about them.

Coordinates and tile indices are modelled as `Int` (JavaScript numbers
used integrally); randomness (weighted draws, uniform picks, shuffles)
is modelled by explicit choice parameters constrained by validity
predicates expressing the guaranteed range of the random source.
-/

namespace DungeonCrawler

/-- Door location, in coordinates relative to the room origin, as returned
by getDoorLocations of the dungeon library. -/
structure DoorLoc where
  x : Int
  y : Int
deriving DecidableEq, Repr

/-- Room rectangle as supplied by the dungeon-generation library:
origin (x, y), dimensions, and the list of door locations. -/
structure Room where
  x : Int
  y : Int
  width : Int
  height : Int
  doors : List DoorLoc
deriving DecidableEq, Repr

/-- Derived field: left column of the room (dungeon library: left = x). -/
def Room.left (r : Room) : Int := r.x

/-- Derived field: right column (dungeon library: right = x + width - 1). -/
def Room.right (r : Room) : Int := r.x + r.width - 1

/-- Derived field: top row (dungeon library: top = y). -/
def Room.top (r : Room) : Int := r.y

/-- Derived field: bottom row (dungeon library: bottom = y + height - 1). -/
def Room.bottom (r : Room) : Int := r.y + r.height - 1

/-- Derived field: center column (dungeon library: x + floor(width / 2)). -/
def Room.centerX (r : Room) : Int := r.x + r.width / 2

/-- Derived field: center row (dungeon library: y + floor(height / 2)). -/
def Room.centerY (r : Room) : Int := r.y + r.height / 2

/-- Membership of a grid cell in the rectangle of a room. -/
def Room.containsCell (r : Room) (a b : Int) : Prop :=
  r.left ≤ a ∧ a ≤ r.right ∧ r.top ≤ b ∧ b ≤ r.bottom

instance (r : Room) (a b : Int) : Decidable (r.containsCell a b) := by
  unfold Room.containsCell; infer_instance

/-- Disjointness of two room rectangles, stated structurally on the bounds. -/
def RectDisjoint (r s : Room) : Prop :=
  r.right < s.left ∨ s.right < r.left ∨ r.bottom < s.top ∨ s.bottom < r.top

instance (r s : Room) : Decidable (RectDisjoint r s) := by
  unfold RectDisjoint; infer_instance

/-- A tile grid: a total assignment of a tile index to every cell.
Index -1 denotes an empty cell (the engine convention). -/
def Grid : Type := Int → Int → Int

/-- Weighted alternative from the tile-index table: a tile index together
with its selection weight.

Modelled from the spec: the tile-mapping module (TILES) is not under src;
the spec describes a static mapping from semantic tile roles to either a
single tile index or a weighted list of index/weight alternatives. -/
structure WeightedAlt where
  index : Int
  weight : Int
deriving DecidableEq, Repr

/-- Tile-index table by semantic role.

Modelled from the spec: the tile-mapping module (TILES) is not under src;
the roles named here are the ones the scene code reads (blank, floor,
corner/edge walls, door patterns are handled separately at anchor level,
stairs, chest, pot, tower). -/
structure TileMapping where
  blank : Int
  floor : List WeightedAlt
  wallTopLeft : Int
  wallTopRight : Int
  wallBottomRight : Int
  wallBottomLeft : Int
  wallTop : List WeightedAlt
  wallBottom : List WeightedAlt
  wallLeft : List WeightedAlt
  wallRight : List WeightedAlt
  stairs : Int
  chest : Int
  pot : List WeightedAlt
deriving DecidableEq, Repr

/-- A tile index is a valid outcome of a weighted draw from the given
alternatives when it is one of the listed indices. -/
def ValidPick (alts : List WeightedAlt) (i : Int) : Prop :=
  i ∈ alts.map WeightedAlt.index

instance (alts : List WeightedAlt) (i : Int) : Decidable (ValidPick alts i) := by
  unfold ValidPick; infer_instance

/-- Engine primitive putTileAt: write one tile index at one cell. -/
def putTileAt (t : Int) (x y : Int) (g : Grid) : Grid :=
  fun a b => if a = x ∧ b = y then t else g a b

/-- Engine primitive weightedRandomize over a rectangle of origin (x, y)
and extent w × h: every cell of the region receives an independent draw,
modelled by the per-cell choice function pick. -/
def fillRect (pick : Int → Int → Int) (x y w h : Int) (g : Grid) : Grid :=
  fun a b => if x ≤ a ∧ a < x + w ∧ y ≤ b ∧ b < y + h then pick a b else g a b

/-- Per-cell choice functions for the five weightedRandomize calls the
painter performs on the ground layer (floor fill and the four wall edges). -/
structure Picks where
  floorPick : Int → Int → Int
  wallTopPick : Int → Int → Int
  wallBottomPick : Int → Int → Int
  wallLeftPick : Int → Int → Int
  wallRightPick : Int → Int → Int

/-- The choice functions only ever return indices from the corresponding
weighted alternative lists (the guarantee of the weighted draw of the engine). -/
def Picks.Valid (pk : Picks) (tm : TileMapping) : Prop :=
  (∀ a b, ValidPick tm.floor (pk.floorPick a b)) ∧
  (∀ a b, ValidPick tm.wallTop (pk.wallTopPick a b)) ∧
  (∀ a b, ValidPick tm.wallBottom (pk.wallBottomPick a b)) ∧
  (∀ a b, ValidPick tm.wallLeft (pk.wallLeftPick a b)) ∧
  (∀ a b, ValidPick tm.wallRight (pk.wallRightPick a b))

/-- Ground-layer painting of one room, excluding doors (scene create,
lines 96-138): weighted floor fill of the interior inset by one tile,
the four fixed corner tiles, then weighted fills of the four wall edges
(each excluding the corners). Writes happen in source order, later writes
overwriting earlier ones. -/
def paintRoomBase (tm : TileMapping) (pk : Picks) (room : Room) (g : Grid) : Grid :=
  let g1 := fillRect pk.floorPick (room.x + 1) (room.y + 1)
    (room.width - 2) (room.height - 2) g
  let g2 := putTileAt tm.wallTopLeft room.left room.top g1
  let g3 := putTileAt tm.wallTopRight room.right room.top g2
  let g4 := putTileAt tm.wallBottomRight room.right room.bottom g3
  let g5 := putTileAt tm.wallBottomLeft room.left room.bottom g4
  let g6 := fillRect pk.wallTopPick (room.left + 1) room.top (room.width - 2) 1 g5
  let g7 := fillRect pk.wallBottomPick (room.left + 1) room.bottom (room.width - 2) 1 g6
  let g8 := fillRect pk.wallLeftPick room.left (room.top + 1) 1 (room.height - 2) g7
  fillRect pk.wallRightPick room.right (room.top + 1) 1 (room.height - 2) g8

/-- Edge of a room on which a door sits. -/
inductive Edge
  | top
  | bottom
  | left
  | right
deriving DecidableEq, Repr

/-- One door-pattern stamp performed by the painter: the edge-specific
multi-tile pattern (putTilesAt) together with the anchor cell it is
stamped at, in global grid coordinates. -/
structure DoorStamp where
  edge : Edge
  ax : Int
  ay : Int
deriving DecidableEq, Repr

/-- Door stamping performed by the scene create (lines 142-169), as the
code writes it: the sequential if/else chain on the local door
coordinates, producing for each door at most one edge-specific stamp at
the anchor the code passes to putTilesAt. A door matching none of the
four tests produces no stamp. -/
def doorStampsCode (room : Room) : List DoorStamp :=
  room.doors.filterMap fun d =>
    if d.y = 0 then
      some ⟨Edge.top, room.x + d.x - 1, room.y + d.y⟩
    else if d.y = room.height - 1 then
      some ⟨Edge.bottom, room.x + d.x - 1, room.y + d.y⟩
    else if d.x = 0 then
      some ⟨Edge.left, room.x + d.x, room.y + d.y - 1⟩
    else if d.x = room.width - 1 then
      some ⟨Edge.right, room.x + d.x, room.y + d.y - 1⟩
    else
      none

/-- Edge classification of a door as a pure function of its local
coordinates and the room dimensions, with priority
top, then bottom, then left, then right (spec section 4.1). -/
def doorEdgeSpec (width height dx dy : Int) : Option Edge :=
  if dy = 0 then some Edge.top
  else if dy = height - 1 then some Edge.bottom
  else if dx = 0 then some Edge.left
  else if dx = width - 1 then some Edge.right
  else none

/-- Anchor of the door pattern of an edge as the spec states it: one cell
before the global door position along the axis of the edge (x - 1 for
top/bottom doors, y - 1 for left/right doors). -/
def doorAnchorSpec (room : Room) (d : DoorLoc) : Edge → Int × Int
  | Edge.top => (room.x + d.x - 1, room.y + d.y)
  | Edge.bottom => (room.x + d.x - 1, room.y + d.y)
  | Edge.left => (room.x + d.x, room.y + d.y - 1)
  | Edge.right => (room.x + d.x, room.y + d.y - 1)

/-- Room classification of the scene create (lines 176-182): copy the
room list, shift off the start room (generation index 0), remove the room
at a random index of the remainder as the end room, shuffle what is left
and keep the first floor(0.9 * count) rooms as prop rooms. The random
removal index and the shuffle are explicit parameters. Returns none when
the code would fault (fewer than two rooms). -/
def classifyRooms (endIdx : Nat) (shuffle : List Room → List Room)
    (rooms : List Room) : Option (Room × Room × List Room) :=
  match rooms with
  | [] => none
  | start :: rest =>
    match rest[endIdx]? with
    | none => none
    | some endRoom =>
      let remaining := rest.eraseIdx endIdx
      some (start, endRoom, (shuffle remaining).take (9 * remaining.length / 10))

/-- One write event on the stuff layer: a stairs/chest tile at a cell,
a weighted pot variant at a cell, or an edge-agnostic tower pattern
stamped at an anchor cell (multi-tile patterns are recorded by the anchor
the code passes to putTilesAt). -/
inductive StuffWrite
  | stairs (x y : Int)
  | chest (x y : Int)
  | pot (x y : Int) (idx : Int)
  | towerStamp (x y : Int)
deriving DecidableEq, Repr

/-- Anchor cell of a stuff-layer write event. -/
def StuffWrite.pos : StuffWrite → Int × Int
  | StuffWrite.stairs x y => (x, y)
  | StuffWrite.chest x y => (x, y)
  | StuffWrite.pot x y _ => (x, y)
  | StuffWrite.towerStamp x y => (x, y)

/-- Random draws consumed when placing props in one room: the branch
selector r from Math.random, the two uniform Between draws for the pot
cell, and the weighted pot-variant pick. -/
structure PropRand where
  r : ℚ
  potX : Int
  potY : Int
  potPick : Int

/-- Guarantees of the random sources for one room: Math.random lies in
[0, 1), Between(lo, hi) is inclusive on the requested pot rectangle, and
the weighted pot draw returns a listed pot index. -/
def PropRand.Valid (tm : TileMapping) (pr : PropRand) (room : Room) : Prop :=
  0 ≤ pr.r ∧ pr.r < 1 ∧
  room.left + 2 ≤ pr.potX ∧ pr.potX ≤ room.right - 2 ∧
  room.top + 2 ≤ pr.potY ∧ pr.potY ≤ room.bottom - 2 ∧
  ValidPick tm.pot pr.potPick

instance (tm : TileMapping) (pr : PropRand) (room : Room) :
    Decidable (pr.Valid tm room) := by
  unfold PropRand.Valid
  infer_instance

/-- Prop placement for one prop room (scene create, lines 188-234):
branch on the single random draw r; at most 0.25 a chest at room center;
at most 0.5 a weighted pot at the Between-drawn cell; otherwise four
tower stamps when the room height is at least 9, else two. -/
def placeProps (pr : PropRand) (room : Room) : List StuffWrite :=
  if pr.r ≤ 1/4 then
    [StuffWrite.chest room.centerX room.centerY]
  else if pr.r ≤ 1/2 then
    [StuffWrite.pot pr.potX pr.potY pr.potPick]
  else if room.height ≥ 9 then
    [StuffWrite.towerStamp (room.centerX - 1) (room.centerY + 1),
     StuffWrite.towerStamp (room.centerX + 1) (room.centerY + 1),
     StuffWrite.towerStamp (room.centerX - 1) (room.centerY - 2),
     StuffWrite.towerStamp (room.centerX + 1) (room.centerY - 2)]
  else
    [StuffWrite.towerStamp (room.centerX - 1) (room.centerY - 1),
     StuffWrite.towerStamp (room.centerX + 1) (room.centerY - 1)]

/-- All stuff-layer writes of the scene create (lines 184-234): the
stairs tile at the center of the end room, then the prop writes of each
prop room in order, with randFor supplying the draws of each room. -/
def stuffWrites (randFor : Room → PropRand) (endRoom : Room)
    (otherRooms : List Room) : List StuffWrite :=
  StuffWrite.stairs endRoom.centerX endRoom.centerY ::
    otherRooms.flatMap fun rm => placeProps (randFor rm) rm

/-- Tile indices excluded from collision by the scene create (line 238):
empty, the floor variants and the door threshold. -/
def walkableIndices : List Int := [-1, 6, 7, 8, 26]

/-- Engine primitive setCollisionByExclusion: every cell whose tile index
is not in the exclusion list becomes collidable; listed indices do not
collide. Modelled from the spec: the collision-exclusion declaration is
an engine (tile-grid host) capability, described in spec sections 4.1
and 6. -/
def setCollisionByExclusion (excl : List Int) (g : Grid) : Int → Int → Bool :=
  fun a b => ! excl.contains (g a b)

/-- Collision predicate the create applies to the ground layer (line 238). -/
def groundCollides (g : Grid) : Int → Int → Bool :=
  setCollisionByExclusion walkableIndices g

/-- Collision predicate the create applies to the stuff layer (line 239). -/
def stuffCollides (g : Grid) : Int → Int → Bool :=
  setCollisionByExclusion walkableIndices g

/-- Visibility state of one room in the fog-of-war tracker.

Modelled from the spec: tilemap-visibility is not under src; states per
room are Unseen (initial, opaque), Active (fully revealed) and
PreviouslySeen (dimmed). -/
inductive VisState
  | unseen
  | active
  | previouslySeen
deriving DecidableEq, Repr

/-- Alpha written to the shadow grid over a room that becomes dimmed. -/
def dimAlpha : ℚ := 1/2

/-- State of the room-visibility tracker: the currently active room (if
any), the per-room visibility state, and the shadow-grid alpha per cell.

Modelled from the spec: tilemap-visibility is not under src; the tracker
owns the shadow grid and remembers the active room. -/
structure Visibility where
  activeRoom : Option Room
  state : Room → VisState
  shadow : Int → Int → ℚ

/-- Set the shadow alpha uniformly over the rectangle of a room. -/
def setRoomAlpha (rm : Room) (a : ℚ) (sh : Int → Int → ℚ) : Int → Int → ℚ :=
  fun p q => if rm.containsCell p q then a else sh p q

/-- Tracker transition setActiveRoom.

Modelled from the spec: tilemap-visibility is not under src. On each
update, given the new active room (possibly none), if it differs from the
current active room, the previous active room (if any) transitions to
PreviouslySeen and its shadow cells are dimmed, then the new room (if
any) transitions to Active and its shadow cells are cleared; no-op when
the room is unchanged, and safe to call with none. -/
def setActiveRoom (room : Option Room) (v : Visibility) : Visibility :=
  if room = v.activeRoom then v
  else
    let v1 : Visibility :=
      match v.activeRoom with
      | none => v
      | some old =>
        { v with
          shadow := setRoomAlpha old dimAlpha v.shadow,
          state := fun r => if r = old then VisState.previouslySeen else v.state r }
    match room with
    | none => { v1 with activeRoom := none }
    | some r =>
      { activeRoom := some r,
        shadow := setRoomAlpha r 0 v1.shadow,
        state := fun s => if s = r then VisState.active else v1.state s }

/-- Tracker state at level creation: no active room, every room unseen,
the whole shadow grid opaque. -/
def initVisibility : Visibility :=
  { activeRoom := none, state := fun _ => VisState.unseen, shadow := fun _ _ => 1 }

/-- Apply a sequence of setActiveRoom calls, earliest first. -/
def applyCalls (calls : List (Option Room)) (v : Visibility) : Visibility :=
  calls.foldl (fun acc c => setActiveRoom c acc) v

/-- Player state: tile-space position and the frozen flag set when the
goal fires. The movement logic of the player itself lives in the player module
and is abstracted as a step parameter of the scene update. -/
structure PlayerS where
  x : Int
  y : Int
  frozen : Bool
deriving DecidableEq, Repr

/-- Stairs tile-index callback currently installed on the stuff layer:
the goal handler installed by create, or the no-op it replaces itself
with after firing. -/
inductive StairsCb
  | goal
  | noop
deriving DecidableEq, Repr

/-- Core scene state read and written by the per-frame update and the
stairs callback: the goal flag, the player, the visibility tracker, the
installed stairs callback, and a count of camera-fade sequences started. -/
structure Scene where
  hasPlayerReachedStairs : Bool
  player : PlayerS
  vis : Visibility
  stairsCb : StairsCb
  fadeEvents : Nat

/-- Per-frame scene update (lines 290-302): return immediately when the
goal flag is set; otherwise step the player, look up the room containing
the tile position of the player (roomAt abstracts worldToTile composed with
dungeon.getRoomAt) and hand it to the visibility tracker. -/
def sceneUpdate (playerStep : PlayerS → PlayerS)
    (roomAt : Int → Int → Option Room) (s : Scene) : Scene :=
  if s.hasPlayerReachedStairs then s
  else
    let p := playerStep s.player
    { s with player := p, vis := setActiveRoom (roomAt p.x p.y) s.vis }

/-- Effect of the player overlapping the stairs tile (lines 241-255):
run the installed callback. The goal handler replaces itself with a
no-op, sets the goal flag, freezes the player and starts the camera
fade (counted by fadeEvents); the no-op leaves the scene unchanged. -/
def onStairsOverlap (s : Scene) : Scene :=
  match s.stairsCb with
  | StairsCb.noop => s
  | StairsCb.goal =>
    { s with
      stairsCb := StairsCb.noop,
      hasPlayerReachedStairs := true,
      player := { s.player with frozen := true },
      fadeEvents := s.fadeEvents + 1 }

/-- Iterate the stairs-overlap event n times. -/
def overlaps : Nat → Scene → Scene
  | 0, s => s
  | n + 1, s => overlaps n (onStairsOverlap s)

/-- Example tile-index table used to exercise the definitions on concrete
inputs (the concrete art indices are interchangeable; only the role
structure matters to the theorems). -/
def exTiles : TileMapping :=
  { blank := 20
    floor := [⟨6, 9⟩, ⟨7, 1⟩, ⟨8, 1⟩, ⟨26, 1⟩]
    wallTopLeft := 3
    wallTopRight := 4
    wallBottomRight := 23
    wallBottomLeft := 22
    wallTop := [⟨39, 4⟩, ⟨57, 1⟩]
    wallBottom := [⟨1, 4⟩, ⟨78, 1⟩]
    wallLeft := [⟨21, 4⟩, ⟨76, 1⟩]
    wallRight := [⟨19, 4⟩, ⟨77, 1⟩]
    stairs := 81
    chest := 166
    pot := [⟨13, 1⟩, ⟨32, 1⟩] }

/-- Example choice functions, constant picks from the exTiles lists. -/
def exPicks : Picks :=
  { floorPick := fun _ _ => 6
    wallTopPick := fun _ _ => 39
    wallBottomPick := fun _ _ => 1
    wallLeftPick := fun _ _ => 21
    wallRightPick := fun _ _ => 19 }

/-- Example room with one top-edge door. -/
def exRoomA : Room := ⟨0, 0, 7, 7, [⟨3, 0⟩]⟩

/-- Second example room, disjoint from exRoomA. -/
def exRoomB : Room := ⟨10, 0, 9, 11, [⟨0, 4⟩]⟩

/-- Third example room, disjoint from the other two. -/
def exRoomC : Room := ⟨0, 10, 7, 9, []⟩

/-- Fourth example room. -/
def exRoomD : Room := ⟨10, 14, 7, 7, []⟩

/-- Fifth example room. -/
def exRoomE : Room := ⟨20, 14, 9, 9, []⟩

/-- Example ground grid: everything blank, as after the initial fill. -/
def exGrid : Grid := fun _ _ => 20

/-- Example per-room random draws for prop placement (chest branch). -/
def exPropRand : PropRand := { r := 0, potX := 2, potY := 3, potPick := 13 }

/-- Example per-room random source: chest branch, pot cell two tiles in
from the top-left room corner. -/
def exRandFor : Room → PropRand :=
  fun rm => { r := 0, potX := rm.x + 2, potY := rm.y + 2, potPick := 13 }

/-- Example visibility state with exRoomB active. -/
def exVis : Visibility :=
  { activeRoom := some exRoomB
    state := fun r => if r = exRoomB then VisState.active else VisState.unseen
    shadow := fun _ _ => 1 }

/-- Example scene whose goal flag is already set. -/
def exSceneDone : Scene :=
  { hasPlayerReachedStairs := true
    player := ⟨3, 3, true⟩
    vis := exVis
    stairsCb := StairsCb.noop
    fadeEvents := 1 }

/-- Example scene right after create: goal handler installed, flag clear. -/
def exSceneFresh : Scene :=
  { hasPlayerReachedStairs := false
    player := ⟨3, 3, false⟩
    vis := initVisibility
    stairsCb := StairsCb.goal
    fadeEvents := 0 }

/-- A scene whose installed stairs callback is the no-op is a fixed point
of the overlap event. -/
theorem onStairsOverlap_noop_fixed {s : Scene} (h : s.stairsCb = StairsCb.noop) :
    onStairsOverlap s = s := by
  unfold onStairsOverlap
  rw [h]

/-- Iterating the overlap event from a no-op-callback scene changes nothing. -/
theorem overlaps_noop_fixed {s : Scene} (h : s.stairsCb = StairsCb.noop) :
    ∀ n, overlaps n s = s := by
  intro n
  induction n with
  | zero => rfl
  | succ n ih => rw [overlaps, onStairsOverlap_noop_fixed h, ih]

/-- C6: after painting, collision is configured identically on the ground
and stuff grids by exclusion: a cell is collidable exactly when its tile
index lies outside the walkable set, for every grid and cell, and the two
layers use the very same exclusion configuration. -/
theorem collision_by_exclusion_both_layers (g : Grid) (a b : Int) :
    (groundCollides g a b = true ↔ g a b ∉ walkableIndices) ∧
    (stuffCollides g a b = true ↔ g a b ∉ walkableIndices) ∧
    groundCollides g a b = stuffCollides g a b := by
  unfold groundCollides stuffCollides setCollisionByExclusion
  simp

/-- C9: once hasPlayerReachedStairs is set, every subsequent frame update
returns the scene unchanged: the player is not stepped and the visibility
tracker (hence the shadow grid and active room) is untouched. -/
theorem update_noop_after_goal (playerStep : PlayerS → PlayerS)
    (roomAt : Int → Int → Option Room) (s : Scene)
    (h : s.hasPlayerReachedStairs = true) :
    sceneUpdate playerStep roomAt s = s ∧
    (sceneUpdate playerStep roomAt s).player = s.player ∧
    (sceneUpdate playerStep roomAt s).vis = s.vis := by
  unfold sceneUpdate
  rw [h]
  exact ⟨rfl, rfl, rfl⟩

/-- C9 witness: the theorem applied to a concrete finished scene. -/
theorem update_noop_after_goal_witness :
    exSceneDone.hasPlayerReachedStairs = true ∧
    sceneUpdate id (fun _ _ => none) exSceneDone = exSceneDone :=
  ⟨rfl, (update_noop_after_goal id (fun _ _ => none) exSceneDone rfl).1⟩

/-- C10: the stairs goal handler fires at most once per level: on its
first invocation it replaces itself with the no-op, sets the goal flag,
freezes the player and starts exactly one fade, and every further
overlap in the same level leaves the scene exactly as after that first
invocation. -/
theorem stairs_goal_fires_at_most_once (s : Scene) (h : s.stairsCb = StairsCb.goal) :
    (onStairsOverlap s).stairsCb = StairsCb.noop ∧
    (onStairsOverlap s).hasPlayerReachedStairs = true ∧
    (onStairsOverlap s).player.frozen = true ∧
    (onStairsOverlap s).fadeEvents = s.fadeEvents + 1 ∧
    ∀ n, overlaps n (onStairsOverlap s) = onStairsOverlap s := by
  unfold onStairsOverlap
  rw [h]
  refine ⟨rfl, rfl, rfl, rfl, ?_⟩
  intro n
  exact overlaps_noop_fixed rfl n

/-- C10 witness: the theorem applied to a concrete freshly created scene. -/
theorem stairs_goal_fires_at_most_once_witness :
    exSceneFresh.stairsCb = StairsCb.goal ∧
    ((onStairsOverlap exSceneFresh).fadeEvents = exSceneFresh.fadeEvents + 1 ∧
      ∀ n, overlaps n (onStairsOverlap exSceneFresh) = onStairsOverlap exSceneFresh) :=
  ⟨rfl,
    ⟨(stairs_goal_fires_at_most_once exSceneFresh rfl).2.2.2.1,
     (stairs_goal_fires_at_most_once exSceneFresh rfl).2.2.2.2⟩⟩

/-- C2: door stamping agrees with the pure edge classifier: the if/else
chain of the code stamps, for each door, exactly the pattern of the edge
doorEdgeSpec computes from the local door coordinates and the room
dimensions, at the anchor one cell before the door along the axis of the
edge; and the classifier resolves with priority top, bottom, left,
right, so a corner-adjacent door prefers top/bottom. -/
theorem doorStamps_classification_and_anchor (room : Room) :
    (doorStampsCode room = room.doors.filterMap fun d =>
      (doorEdgeSpec room.width room.height d.x d.y).map fun e =>
        ⟨e, (doorAnchorSpec room d e).1, (doorAnchorSpec room d e).2⟩) ∧
    (∀ w h dx : Int, doorEdgeSpec w h dx 0 = some Edge.top) ∧
    (∀ w h dx dy : Int, dy ≠ 0 → dy = h - 1 →
      doorEdgeSpec w h dx dy = some Edge.bottom) ∧
    (∀ w h dy : Int, dy ≠ 0 → dy ≠ h - 1 →
      doorEdgeSpec w h 0 dy = some Edge.left) ∧
    (∀ w h dx dy : Int, dy ≠ 0 → dy ≠ h - 1 → dx ≠ 0 → dx = w - 1 →
      doorEdgeSpec w h dx dy = some Edge.right) := by
  refine ⟨?_, ?_, ?_, ?_, ?_⟩
  · unfold doorStampsCode
    apply List.filterMap_congr
    intro d _
    unfold doorEdgeSpec doorAnchorSpec
    split_ifs <;> rfl
  · intro w h dx
    unfold doorEdgeSpec
    rw [if_pos rfl]
  · intro w h dx dy h1 h2
    unfold doorEdgeSpec
    rw [if_neg h1, if_pos h2]
  · intro w h dy h1 h2
    unfold doorEdgeSpec
    rw [if_neg h1, if_neg h2, if_pos rfl]
  · intro w h dx dy h1 h2 h3 h4
    unfold doorEdgeSpec
    rw [if_neg h1, if_neg h2, if_neg h3, if_pos h4]

/-- C2 witness: a corner door at local (0, 0) of exRoomA resolves to
the top edge (not left), with the stamp anchored at x - 1. -/
theorem doorStamps_classification_and_anchor_witness :
    doorStampsCode exRoomA =
      (exRoomA.doors.filterMap fun d =>
        (doorEdgeSpec exRoomA.width exRoomA.height d.x d.y).map fun e =>
          ⟨e, (doorAnchorSpec exRoomA d e).1, (doorAnchorSpec exRoomA d e).2⟩) ∧
    doorEdgeSpec 7 7 0 0 = some Edge.top ∧
    ((6 : Int) ≠ 0 ∧ (6 : Int) = 7 - 1) ∧
    doorEdgeSpec 7 7 3 6 = some Edge.bottom :=
  ⟨(doorStamps_classification_and_anchor exRoomA).1,
   (doorStamps_classification_and_anchor exRoomA).2.1 7 7 0,
   ⟨by decide, by decide⟩,
   (doorStamps_classification_and_anchor exRoomA).2.2.1 7 7 3 6 (by decide) (by decide)⟩

/-- After setActiveRoom, the recorded active room is exactly the argument. -/
theorem setActiveRoom_activeRoom (R : Option Room) (v : Visibility) :
    (setActiveRoom R v).activeRoom = R := by
  unfold setActiveRoom
  split_ifs with h
  · exact h.symm
  · cases R <;> rfl

/-- setActiveRoom with the currently active room is the identity. -/
theorem setActiveRoom_eq_self (R : Option Room) (v : Visibility)
    (h : R = v.activeRoom) : setActiveRoom R v = v := by
  unfold setActiveRoom
  rw [if_pos h]

/-- One setActiveRoom step never sends a room back to Unseen. -/
theorem setActiveRoom_not_unseen (R : Option Room) (v : Visibility) (r : Room)
    (h : v.state r ≠ VisState.unseen) :
    (setActiveRoom R v).state r ≠ VisState.unseen := by
  unfold setActiveRoom
  split_ifs with hg
  · exact h
  · cases R with
    | none =>
      cases hact : v.activeRoom with
      | none => simpa [hact] using h
      | some old =>
        simp only [hact]
        split_ifs <;> simp_all
    | some rr =>
      cases hact : v.activeRoom with
      | none =>
        simp only [hact]
        split_ifs <;> simp_all
      | some old =>
        simp only [hact]
        split_ifs <;> simp_all

/-- Along any sequence of setActiveRoom calls, a room that is not Unseen
stays not Unseen. -/
theorem applyCalls_not_unseen (calls : List (Option Room)) (v : Visibility)
    (r : Room) (h : v.state r ≠ VisState.unseen) :
    (applyCalls calls v).state r ≠ VisState.unseen := by
  induction calls generalizing v with
  | nil => exact h
  | cons c cs ih => exact ih (setActiveRoom c v) (setActiveRoom_not_unseen c v r h)

/-- C7: setActiveRoom is idempotent, and calling it with no room is safe:
the previously active room (if any) becomes PreviouslySeen with its
shadow cells dimmed, no room is left active, and no room newly becomes
Active. -/
theorem setActiveRoom_idempotent_and_null_safe (R : Option Room) (v : Visibility) :
    setActiveRoom R (setActiveRoom R v) = setActiveRoom R v ∧
    (setActiveRoom none v).activeRoom = none ∧
    (∀ old, v.activeRoom = some old →
      (setActiveRoom none v).state old = VisState.previouslySeen ∧
      ∀ p q, old.containsCell p q → (setActiveRoom none v).shadow p q = dimAlpha) ∧
    (∀ r, (setActiveRoom none v).state r = VisState.active →
      v.state r = VisState.active) := by
  refine ⟨?_, setActiveRoom_activeRoom none v, ?_, ?_⟩
  · exact setActiveRoom_eq_self R (setActiveRoom R v) (setActiveRoom_activeRoom R v).symm
  · intro old hold
    have hg : (none : Option Room) ≠ v.activeRoom := by rw [hold]; simp
    unfold setActiveRoom
    rw [if_neg hg, hold]
    dsimp only
    constructor
    · simp
    · intro p q hpq
      unfold setRoomAlpha
      rw [if_pos hpq]
  · intro r hr
    by_cases hg : (none : Option Room) = v.activeRoom
    · rwa [setActiveRoom_eq_self none v hg] at hr
    · unfold setActiveRoom at hr
      rw [if_neg hg] at hr
      cases hact : v.activeRoom with
      | none => simpa [hact] using hr
      | some old =>
        rw [hact] at hr
        by_cases hro : r = old
        · simp [hro] at hr
        · simpa [hro] using hr

/-- C7 witness: the theorem applied at a concrete state with exRoomB
active; the null call dims exRoomB and leaves no active room. -/
theorem setActiveRoom_idempotent_and_null_safe_witness :
    (setActiveRoom (some exRoomA) (setActiveRoom (some exRoomA) exVis) =
      setActiveRoom (some exRoomA) exVis) ∧
    exVis.activeRoom = some exRoomB ∧
    (setActiveRoom none exVis).state exRoomB = VisState.previouslySeen :=
  ⟨(setActiveRoom_idempotent_and_null_safe (some exRoomA) exVis).1,
   rfl,
   ((setActiveRoom_idempotent_and_null_safe (some exRoomA) exVis).2.2.1 exRoomB rfl).1⟩

/-- C8: per-room visibility is monotonic within a level: starting from
the all-Unseen state created with the level, once a room is Active after
some calls, it is Active or PreviouslySeen after any further calls,
never Unseen again. -/
theorem visibility_monotonic_per_room (calls1 calls2 : List (Option Room)) (r : Room)
    (h : (applyCalls calls1 initVisibility).state r = VisState.active) :
    (applyCalls calls2 (applyCalls calls1 initVisibility)).state r = VisState.active ∨
    (applyCalls calls2 (applyCalls calls1 initVisibility)).state r =
      VisState.previouslySeen := by
  have hne : (applyCalls calls1 initVisibility).state r ≠ VisState.unseen := by
    rw [h]; simp
  have := applyCalls_not_unseen calls2 (applyCalls calls1 initVisibility) r hne
  cases hs : (applyCalls calls2 (applyCalls calls1 initVisibility)).state r with
  | unseen => exact absurd hs this
  | active => exact Or.inl rfl
  | previouslySeen => exact Or.inr rfl

/-- C8 witness: after entering exRoomA, then exRoomB, then leaving all
rooms, exRoomA is previously seen, not unseen. -/
theorem visibility_monotonic_per_room_witness :
    (applyCalls [some exRoomA] initVisibility).state exRoomA = VisState.active ∧
    ((applyCalls [some exRoomB, none]
        (applyCalls [some exRoomA] initVisibility)).state exRoomA = VisState.active ∨
     (applyCalls [some exRoomB, none]
        (applyCalls [some exRoomA] initVisibility)).state exRoomA =
       VisState.previouslySeen) :=
  ⟨by decide,
   visibility_monotonic_per_room [some exRoomA] [some exRoomB, none] exRoomA (by decide)⟩

/-- Evaluation of a weighted region fill inside the region. -/
theorem fillRect_in {pick : Int → Int → Int} {x y w h : Int} {g : Grid} {a b : Int}
    (h1 : x ≤ a) (h2 : a < x + w) (h3 : y ≤ b) (h4 : b < y + h) :
    fillRect pick x y w h g a b = pick a b := by
  unfold fillRect
  rw [if_pos ⟨h1, h2, h3, h4⟩]

/-- Evaluation of a weighted region fill outside the region. -/
theorem fillRect_out {pick : Int → Int → Int} {x y w h : Int} {g : Grid} {a b : Int}
    (hc : ¬(x ≤ a ∧ a < x + w ∧ y ≤ b ∧ b < y + h)) :
    fillRect pick x y w h g a b = g a b := by
  unfold fillRect
  rw [if_neg hc]

/-- Evaluation of a single-tile write at its own cell. -/
theorem putTileAt_here {t x y : Int} {g : Grid} {a b : Int}
    (h1 : a = x) (h2 : b = y) : putTileAt t x y g a b = t := by
  unfold putTileAt
  rw [if_pos ⟨h1, h2⟩]

/-- Evaluation of a single-tile write at any other cell. -/
theorem putTileAt_other {t x y : Int} {g : Grid} {a b : Int}
    (hc : ¬(a = x ∧ b = y)) : putTileAt t x y g a b = g a b := by
  unfold putTileAt
  rw [if_neg hc]

set_option maxHeartbeats 1000000 in
/-- C1: for every room of width and height at least 3, paintRoomBase
writes the ground grid so that every interior cell holds exactly the
weighted floor draw made for it (an index from the floor alternatives),
every non-corner boundary cell holds the wall draw of its edge
orientation, and the four corner cells hold exactly the four
orientation-specific corner indices. -/
theorem paintRoomBase_paints_floor_walls_corners (tm : TileMapping) (pk : Picks)
    (room : Room) (g : Grid) (hpk : pk.Valid tm)
    (hw : 3 ≤ room.width) (hh : 3 ≤ room.height) :
    (∀ a b, room.x + 1 ≤ a → a ≤ room.x + room.width - 2 →
      room.y + 1 ≤ b → b ≤ room.y + room.height - 2 →
      paintRoomBase tm pk room g a b = pk.floorPick a b ∧
      ValidPick tm.floor (paintRoomBase tm pk room g a b)) ∧
    (∀ a, room.left + 1 ≤ a → a ≤ room.right - 1 →
      (paintRoomBase tm pk room g a room.top = pk.wallTopPick a room.top ∧
        ValidPick tm.wallTop (paintRoomBase tm pk room g a room.top)) ∧
      (paintRoomBase tm pk room g a room.bottom = pk.wallBottomPick a room.bottom ∧
        ValidPick tm.wallBottom (paintRoomBase tm pk room g a room.bottom))) ∧
    (∀ b, room.top + 1 ≤ b → b ≤ room.bottom - 1 →
      (paintRoomBase tm pk room g room.left b = pk.wallLeftPick room.left b ∧
        ValidPick tm.wallLeft (paintRoomBase tm pk room g room.left b)) ∧
      (paintRoomBase tm pk room g room.right b = pk.wallRightPick room.right b ∧
        ValidPick tm.wallRight (paintRoomBase tm pk room g room.right b))) ∧
    paintRoomBase tm pk room g room.left room.top = tm.wallTopLeft ∧
    paintRoomBase tm pk room g room.right room.top = tm.wallTopRight ∧
    paintRoomBase tm pk room g room.right room.bottom = tm.wallBottomRight ∧
    paintRoomBase tm pk room g room.left room.bottom = tm.wallBottomLeft := by
  obtain ⟨hfl, htp, hbt, hlf, hrt⟩ := hpk
  refine ⟨?_, ?_, ?_, ?_, ?_, ?_, ?_⟩
  · intro a b h1 h2 h3 h4
    have he : paintRoomBase tm pk room g a b = pk.floorPick a b := by
      unfold paintRoomBase
      simp only [Room.left, Room.right, Room.top, Room.bottom]
      simp (disch := omega) only [fillRect_in, fillRect_out, putTileAt_other]
    exact ⟨he, he ▸ hfl a b⟩
  · intro a h1 h2
    simp only [Room.left, Room.right] at h1 h2
    have ht : paintRoomBase tm pk room g a room.top = pk.wallTopPick a room.top := by
      unfold paintRoomBase
      simp only [Room.left, Room.right, Room.top, Room.bottom]
      simp (disch := omega) only [fillRect_in, fillRect_out, putTileAt_other]
    have hb : paintRoomBase tm pk room g a room.bottom =
        pk.wallBottomPick a room.bottom := by
      unfold paintRoomBase
      simp only [Room.left, Room.right, Room.top, Room.bottom]
      simp (disch := omega) only [fillRect_in, fillRect_out, putTileAt_other]
    exact ⟨⟨ht, ht ▸ htp a room.top⟩, hb, hb ▸ hbt a room.bottom⟩
  · intro b h1 h2
    simp only [Room.top, Room.bottom] at h1 h2
    have hl : paintRoomBase tm pk room g room.left b = pk.wallLeftPick room.left b := by
      unfold paintRoomBase
      simp only [Room.left, Room.right, Room.top, Room.bottom]
      simp (disch := omega) only [fillRect_in, fillRect_out, putTileAt_other]
    have hr : paintRoomBase tm pk room g room.right b =
        pk.wallRightPick room.right b := by
      unfold paintRoomBase
      simp only [Room.left, Room.right, Room.top, Room.bottom]
      simp (disch := omega) only [fillRect_in, fillRect_out, putTileAt_other]
    exact ⟨⟨hl, hl ▸ hlf room.left b⟩, hr, hr ▸ hrt room.right b⟩
  · unfold paintRoomBase
    simp only [Room.left, Room.right, Room.top, Room.bottom]
    simp (disch := omega) only [fillRect_out, putTileAt_here, putTileAt_other]
  · unfold paintRoomBase
    simp only [Room.left, Room.right, Room.top, Room.bottom]
    simp (disch := omega) only [fillRect_out, putTileAt_here, putTileAt_other]
  · unfold paintRoomBase
    simp only [Room.left, Room.right, Room.top, Room.bottom]
    simp (disch := omega) only [fillRect_out, putTileAt_here, putTileAt_other]
  · unfold paintRoomBase
    simp only [Room.left, Room.right, Room.top, Room.bottom]
    simp (disch := omega) only [fillRect_out, putTileAt_here, putTileAt_other]

/-- C1 witness: the theorem applied to a concrete 7 by 7 room with the
example table and constant picks; the top-left corner cell indeed holds
the top-left corner index. -/
theorem paintRoomBase_paints_floor_walls_corners_witness :
    Picks.Valid exPicks exTiles ∧ (3 : Int) ≤ exRoomA.width ∧ (3 : Int) ≤ exRoomA.height ∧
    (paintRoomBase exTiles exPicks exRoomA exGrid exRoomA.left exRoomA.top =
      exTiles.wallTopLeft ∧
     paintRoomBase exTiles exPicks exRoomA exGrid exRoomA.right exRoomA.bottom =
      exTiles.wallBottomRight) := by
  have hpk : Picks.Valid exPicks exTiles := by
    refine ⟨fun a b => ?_, fun a b => ?_, fun a b => ?_, fun a b => ?_, fun a b => ?_⟩
    · exact (by decide : ValidPick exTiles.floor 6)
    · exact (by decide : ValidPick exTiles.wallTop 39)
    · exact (by decide : ValidPick exTiles.wallBottom 1)
    · exact (by decide : ValidPick exTiles.wallLeft 21)
    · exact (by decide : ValidPick exTiles.wallRight 19)
  refine ⟨hpk, by decide, by decide, ?_, ?_⟩
  · exact (paintRoomBase_paints_floor_walls_corners exTiles exPicks exRoomA exGrid
      hpk (by decide) (by decide)).2.2.2.1
  · exact (paintRoomBase_paints_floor_walls_corners exTiles exPicks exRoomA exGrid
      hpk (by decide) (by decide)).2.2.2.2.2.1

/-- An element found at an index of a duplicate-free list does not occur
in the list with that index erased. -/
theorem not_mem_eraseIdx_of_nodup {A : Type} :
    ∀ (l : List A) (i : Nat) (a : A), l.Nodup → l[i]? = some a →
      a ∉ l.eraseIdx i := by
  intro l
  induction l with
  | nil =>
    intro i a _ hget
    simp at hget
  | cons x xs ih =>
    intro i a hnd hget
    cases i with
    | zero =>
      rw [List.getElem?_cons_zero, Option.some.injEq] at hget
      subst hget
      simpa using (List.nodup_cons.mp hnd).1
    | succ n =>
      rw [List.getElem?_cons_succ] at hget
      have hmemxs : a ∈ xs := by
        obtain ⟨hlt, heq⟩ := List.getElem?_eq_some.mp hget
        exact heq ▸ List.getElem_mem hlt
      simp only [List.eraseIdx, List.mem_cons]
      rintro (rfl | hmem)
      · exact (List.nodup_cons.mp hnd).1 hmemxs
      · exact ih n a (List.nodup_cons.mp hnd).2 hget hmem

/-- C3: for every dungeon with at least two rooms, the classification
takes the room at generation index 0 as the start, the room at the
random index of the remaining rooms as the end (so it ranges over all
of the other N-1 rooms), keeps exactly floor((N-2) * 0.9) shuffled
prop rooms, and the start, end and prop rooms are pairwise disjoint. -/
theorem classifyRooms_partition (rooms : List Room) (endIdx : Nat)
    (shuffle : List Room → List Room)
    (hsh : ∀ l, (shuffle l).Perm l) (hnd : rooms.Nodup)
    (start endR : Room) (props : List Room)
    (hcl : classifyRooms endIdx shuffle rooms = some (start, endR, props)) :
    rooms[0]? = some start ∧
    rooms.tail[endIdx]? = some endR ∧
    endR ∈ rooms.tail ∧
    props.length = 9 * (rooms.length - 2) / 10 ∧
    start ≠ endR ∧
    start ∉ props ∧
    endR ∉ props ∧
    (∀ p ∈ props, p ∈ rooms.tail) := by
  cases rooms with
  | nil => simp [classifyRooms] at hcl
  | cons st rest =>
    cases hget : rest[endIdx]? with
    | none => simp [classifyRooms, hget] at hcl
    | some e =>
      simp only [classifyRooms, hget, Option.some.injEq, Prod.mk.injEq] at hcl
      obtain ⟨hst, he, hpr⟩ := hcl
      subst hst
      subst he
      subst hpr
      obtain ⟨hidx, hgeteq⟩ := List.getElem?_eq_some.mp hget
      have hmem : e ∈ rest := hgeteq ▸ List.getElem_mem hidx
      have hnx : st ∉ rest := (List.nodup_cons.mp hnd).1
      have hnr : rest.Nodup := (List.nodup_cons.mp hnd).2
      have hlenrem : (rest.eraseIdx endIdx).length = rest.length - 1 :=
        List.length_eraseIdx_of_lt hidx
      have hsubset : ∀ p, p ∈ (shuffle (rest.eraseIdx endIdx)).take
          (9 * (rest.eraseIdx endIdx).length / 10) → p ∈ rest.eraseIdx endIdx :=
        fun p hp =>
          (hsh (rest.eraseIdx endIdx)).mem_iff.mp
            ((List.take_sublist _ _).subset hp)
      have hsubset2 : ∀ p, p ∈ (shuffle (rest.eraseIdx endIdx)).take
          (9 * (rest.eraseIdx endIdx).length / 10) → p ∈ rest :=
        fun p hp => (List.eraseIdx_sublist rest endIdx).subset (hsubset p hp)
      refine ⟨by simp, by simpa using hget, by simpa using hmem, ?_, ?_, ?_, ?_, ?_⟩
      · rw [List.length_take, (hsh (rest.eraseIdx endIdx)).length_eq, hlenrem]
        simp only [List.length_cons]
        omega
      · intro hse
        exact hnx (by rw [hse]; exact hmem)
      · intro hmemp
        exact hnx (hsubset2 st hmemp)
      · intro hmemp
        exact not_mem_eraseIdx_of_nodup rest endIdx e hnr hget (hsubset e hmemp)
      · intro p hp
        simpa using hsubset2 p hp

/-- C3 witness: five concrete rooms, end index 2, identity shuffle; the
start is the first room and the prop count is floor(3 * 0.9) = 2. -/
theorem classifyRooms_partition_witness :
    (∀ l : List Room, (id l).Perm l) ∧
    [exRoomA, exRoomB, exRoomC, exRoomD, exRoomE].Nodup ∧
    classifyRooms 2 id [exRoomA, exRoomB, exRoomC, exRoomD, exRoomE] =
      some (exRoomA, exRoomD, [exRoomB, exRoomC]) ∧
    ([exRoomB, exRoomC] : List Room).length =
      9 * (([exRoomA, exRoomB, exRoomC, exRoomD, exRoomE] : List Room).length - 2) / 10 := by
  have hcl : classifyRooms 2 id [exRoomA, exRoomB, exRoomC, exRoomD, exRoomE] =
      some (exRoomA, exRoomD, [exRoomB, exRoomC]) := by rfl
  refine ⟨fun l => List.Perm.refl l, by decide, hcl, ?_⟩
  exact (classifyRooms_partition [exRoomA, exRoomB, exRoomC, exRoomD, exRoomE] 2 id
    (fun l => List.Perm.refl l) (by decide) exRoomA exRoomD [exRoomB, exRoomC]
    hcl).2.2.2.1

/-- C4: each prop room receives exactly one of the three outcomes keyed
by the single random draw: a chest at the room center when the draw is
at most 0.25, a weighted pot at the Between-drawn cell at least two
tiles from every wall when it is in (0.25, 0.5], and otherwise tower
stamps at four offsets from the center when the room height is at least
9 and at two offsets otherwise. -/
theorem placeProps_trichotomy (tm : TileMapping) (pr : PropRand) (room : Room)
    (hv : pr.Valid tm room) :
    (pr.r ≤ 1/4 ∧
      placeProps pr room = [StuffWrite.chest room.centerX room.centerY]) ∨
    (1/4 < pr.r ∧ pr.r ≤ 1/2 ∧
      placeProps pr room = [StuffWrite.pot pr.potX pr.potY pr.potPick] ∧
      room.left + 2 ≤ pr.potX ∧ pr.potX ≤ room.right - 2 ∧
      room.top + 2 ≤ pr.potY ∧ pr.potY ≤ room.bottom - 2 ∧
      ValidPick tm.pot pr.potPick) ∨
    (1/2 < pr.r ∧
      ((9 ≤ room.height ∧ placeProps pr room =
        [StuffWrite.towerStamp (room.centerX - 1) (room.centerY + 1),
         StuffWrite.towerStamp (room.centerX + 1) (room.centerY + 1),
         StuffWrite.towerStamp (room.centerX - 1) (room.centerY - 2),
         StuffWrite.towerStamp (room.centerX + 1) (room.centerY - 2)]) ∨
       (room.height < 9 ∧ placeProps pr room =
        [StuffWrite.towerStamp (room.centerX - 1) (room.centerY - 1),
         StuffWrite.towerStamp (room.centerX + 1) (room.centerY - 1)]))) := by
  obtain ⟨h0, h1, hx1, hx2, hy1, hy2, hpk⟩ := hv
  by_cases hc : pr.r ≤ 1/4
  · left
    exact ⟨hc, by unfold placeProps; rw [if_pos hc]⟩
  · by_cases hp : pr.r ≤ 1/2
    · right
      left
      refine ⟨not_le.mp hc, hp, ?_, hx1, hx2, hy1, hy2, hpk⟩
      unfold placeProps
      rw [if_neg hc, if_pos hp]
    · right
      right
      refine ⟨not_le.mp hp, ?_⟩
      by_cases hh : 9 ≤ room.height
      · left
        exact ⟨hh, by unfold placeProps; rw [if_neg hc, if_neg hp, if_pos hh]⟩
      · right
        exact ⟨not_le.mp hh, by unfold placeProps; rw [if_neg hc, if_neg hp, if_neg hh]⟩

/-- C4 witness: with draw 3/8 the room gets exactly the pot outcome. -/
theorem placeProps_trichotomy_witness :
    exPropRand.Valid exTiles exRoomA ∧
    ((exPropRand.r ≤ 1/4 ∧
      placeProps exPropRand exRoomA =
        [StuffWrite.chest exRoomA.centerX exRoomA.centerY]) ∨
    (1/4 < exPropRand.r ∧ exPropRand.r ≤ 1/2 ∧
      placeProps exPropRand exRoomA =
        [StuffWrite.pot exPropRand.potX exPropRand.potY exPropRand.potPick] ∧
      exRoomA.left + 2 ≤ exPropRand.potX ∧ exPropRand.potX ≤ exRoomA.right - 2 ∧
      exRoomA.top + 2 ≤ exPropRand.potY ∧ exPropRand.potY ≤ exRoomA.bottom - 2 ∧
      ValidPick exTiles.pot exPropRand.potPick) ∨
    (1/2 < exPropRand.r ∧
      ((9 ≤ exRoomA.height ∧ placeProps exPropRand exRoomA =
        [StuffWrite.towerStamp (exRoomA.centerX - 1) (exRoomA.centerY + 1),
         StuffWrite.towerStamp (exRoomA.centerX + 1) (exRoomA.centerY + 1),
         StuffWrite.towerStamp (exRoomA.centerX - 1) (exRoomA.centerY - 2),
         StuffWrite.towerStamp (exRoomA.centerX + 1) (exRoomA.centerY - 2)]) ∨
       (exRoomA.height < 9 ∧ placeProps exPropRand exRoomA =
        [StuffWrite.towerStamp (exRoomA.centerX - 1) (exRoomA.centerY - 1),
         StuffWrite.towerStamp (exRoomA.centerX + 1) (exRoomA.centerY - 1)])))) :=
  ⟨by decide, placeProps_trichotomy exTiles exPropRand exRoomA (by decide)⟩

/-- Disjoint rectangles share no cell. -/
theorem RectDisjoint.not_both {r s : Room} (h : RectDisjoint r s) (a b : Int)
    (hr : r.containsCell a b) : ¬ s.containsCell a b := by
  rcases hr with ⟨h1, h2, h3, h4⟩
  intro hs
  rcases hs with ⟨h5, h6, h7, h8⟩
  rcases h with h | h | h | h <;> omega

/-- placeProps never writes a stairs tile. -/
theorem placeProps_no_stairs (pr : PropRand) (room : Room) (x y : Int) :
    StuffWrite.stairs x y ∉ placeProps pr room := by
  unfold placeProps
  split_ifs <;> simp

/-- Every write of placeProps is anchored inside the room it decorates. -/
theorem placeProps_writes_in_room (tm : TileMapping) (pr : PropRand) (room : Room)
    (hv : pr.Valid tm room) (hw : 3 ≤ room.width) (hh : 3 ≤ room.height) :
    ∀ w ∈ placeProps pr room, room.containsCell w.pos.1 w.pos.2 := by
  obtain ⟨h0, h1, hx1, hx2, hy1, hy2, hpk⟩ := hv
  simp only [Room.left, Room.right, Room.top, Room.bottom] at hx1 hx2 hy1 hy2
  intro w hmem
  unfold placeProps at hmem
  split_ifs at hmem
  all_goals simp only [List.mem_singleton, List.mem_cons, List.not_mem_nil,
    or_false] at hmem
  all_goals first
    | (subst hmem
       simp only [Room.containsCell, Room.left, Room.right, Room.top, Room.bottom,
         Room.centerX, Room.centerY, StuffWrite.pos]
       omega)
    | (rcases hmem with hmem | hmem | hmem | hmem <;>
        (subst hmem
         simp only [Room.containsCell, Room.left, Room.right, Room.top, Room.bottom,
           Room.centerX, Room.centerY, StuffWrite.pos]
         omega))
    | (rcases hmem with hmem | hmem <;>
        (subst hmem
         simp only [Room.containsCell, Room.left, Room.right, Room.top, Room.bottom,
           Room.centerX, Room.centerY, StuffWrite.pos]
         omega))

/-- C5: the stuff layer receives the stairs tile first, at exactly the
center of the end room; the stairs tile is written nowhere else; and no prop
write is anchored inside the end room, so the end room receives stairs
only. -/
theorem endRoom_receives_stairs_only (tm : TileMapping) (randFor : Room → PropRand)
    (endRoom : Room) (otherRooms : List Room)
    (hv : ∀ rm ∈ otherRooms, (randFor rm).Valid tm rm ∧ 3 ≤ rm.width ∧
      3 ≤ rm.height ∧ RectDisjoint rm endRoom) :
    (stuffWrites randFor endRoom otherRooms).head? =
      some (StuffWrite.stairs endRoom.centerX endRoom.centerY) ∧
    (∀ x y, StuffWrite.stairs x y ∈ stuffWrites randFor endRoom otherRooms →
      x = endRoom.centerX ∧ y = endRoom.centerY) ∧
    (∀ w ∈ (stuffWrites randFor endRoom otherRooms).tail,
      ¬ endRoom.containsCell w.pos.1 w.pos.2) := by
  refine ⟨rfl, ?_, ?_⟩
  · intro x y hmem
    unfold stuffWrites at hmem
    rcases List.mem_cons.mp hmem with heq | hmem2
    · injection heq with hx hy
      exact ⟨hx, hy⟩
    · rcases List.mem_flatMap.mp hmem2 with ⟨rm, hrm, hin⟩
      exact absurd hin (placeProps_no_stairs (randFor rm) rm x y)
  · intro w hmem
    unfold stuffWrites at hmem
    simp only [List.tail_cons] at hmem
    rcases List.mem_flatMap.mp hmem with ⟨rm, hrm, hin⟩
    obtain ⟨hvr, hwd, hht, hdisj⟩ := hv rm hrm
    exact hdisj.not_both w.pos.1 w.pos.2
      (placeProps_writes_in_room tm (randFor rm) rm hvr hwd hht w hin)

/-- C5 witness: two prop rooms disjoint from the end room; the first
stuff write is the stairs at the center of the end room. -/
theorem endRoom_receives_stairs_only_witness :
    (∀ rm ∈ [exRoomA, exRoomB], (exRandFor rm).Valid exTiles rm ∧
      (3 : Int) ≤ rm.width ∧ (3 : Int) ≤ rm.height ∧ RectDisjoint rm exRoomC) ∧
    (stuffWrites exRandFor exRoomC [exRoomA, exRoomB]).head? =
      some (StuffWrite.stairs exRoomC.centerX exRoomC.centerY) :=
  ⟨by decide,
   (endRoom_receives_stairs_only exTiles exRandFor exRoomC [exRoomA, exRoomB]
     (by decide)).1⟩

end DungeonCrawler
